import Mathlib

/-!
Shallow embedding of `packages/next/src/server/after/after-context.ts` and of
the `InvariantError` class, for verifying the specification claims about the
deferred-task (`unstable_after`) context.

Modelling conventions:
* JavaScript runtime values passed to `after` are modelled by `JSValue`,
  carrying exactly the shape information the source inspects (`typeof`,
  presence and callability of a `then` property) plus behavioural payloads
  (whether an awaitable eventually rejects; what a callback does when run).
* Thrown errors and rejections are modelled with `Except`; a JS `Error`
  object is a `JsError` (name and message).
* Side effects that the source performs on its environment (attaching a
  no-op `catch` handler, invoking `waitUntil`) are recorded as an ordered
  observation list `List Obs`.
* A callback body is abstracted as `CbOutcome`: it either completes and
  applies an observable effect (a `Nat` tag), or throws/rejects with a
  message. The tracer wrapper (`getTracer().trace(...)`) is transparent.
-/

/-- Outcome behaviour of a zero-argument callback passed to `after`:
it either succeeds applying an observable effect tag, or throws/rejects
with an error message. -/
inductive CbOutcome where
  | succeed : Nat → CbOutcome
  | fail : String → CbOutcome
deriving DecidableEq, Repr

/-- A JavaScript value, as far as `after` inspects it: `null`, `undefined`,
primitives, a non-callable object (with flags for a `then` property, whether
that property is callable, and whether the value, read as a promise,
eventually rejects), or a callable function (which may also carry a `then`
property) whose body behaves as the given `CbOutcome`. -/
inductive JSValue where
  | nullV : JSValue
  | undefinedV : JSValue
  | stringV : String → JSValue
  | numberV : Int → JSValue
  | objectV : Bool → Bool → Bool → JSValue
  | functionV : Bool → Bool → CbOutcome → JSValue
deriving DecidableEq, Repr

/-- JavaScript `typeof` on the modelled values (`typeof null` is "object"). -/
def typeofJs : JSValue → String
  | JSValue.nullV => "object"
  | JSValue.undefinedV => "undefined"
  | JSValue.stringV _ => "string"
  | JSValue.numberV _ => "number"
  | JSValue.objectV _ _ _ => "object"
  | JSValue.functionV _ _ _ => "function"

/-- Whether the value has a `then` property (the JS check `then in p`). -/
def hasThenProp : JSValue → Bool
  | JSValue.objectV h _ _ => h
  | JSValue.functionV h _ _ => h
  | _ => false

/-- Whether the `then` property of the value is itself callable
(the JS check `typeof p.then === "function"`). -/
def thenPropIsFunction : JSValue → Bool
  | JSValue.objectV _ c _ => c
  | JSValue.functionV _ c _ => c
  | _ => false

/-- Whether the value, used as a promise, eventually rejects. -/
def rejectsJs : JSValue → Bool
  | JSValue.objectV _ _ r => r
  | _ => false

/-- `isPromise` from after-context.ts: `p !== null && typeof p === "object"
&& "then" in p && typeof p.then === "function"`. -/
def isPromise (p : JSValue) : Bool :=
  !(p == JSValue.nullV) && (typeofJs p == "object")
    && hasThenProp p && thenPropIsFunction p

/-- A JS `Error` object: its `name` and `message`. -/
structure JsError where
  name : String
  message : String
deriving DecidableEq, Repr

/-- `errorWaitUntilNotAvailable` from after-context.ts (the spec calls this
kind `ConfigurationError`, naming the background-execution capability). -/
def errorWaitUntilNotAvailable : JsError :=
  { name := "Error"
    message := "`unstable_after()` will not work correctly, because `waitUntil` is not implemented for the current environment." }

/-- The error thrown by `addCallback` when `requestStore` was never
initialized (internal invariant violation). -/
def errorRequestStoreInvariant : JsError :=
  { name := "Error"
    message := "Invariant: expected `AfterContext.requestStore` to be initialized" }

/-- The error thrown by `addCallback` when `onClose` is absent (the spec
calls this kind `ConfigurationError`, naming the close hook). -/
def errorOnCloseNotAvailable : JsError :=
  { name := "Error"
    message := "`unstable_after()` received a function, but Next.js will not be able to run it, because `onClose` is not implemented for the current environment." }

/-- The error thrown by `after` for a task that is neither a promise nor a
function (the spec calls this kind `TypeMismatchError`). -/
def errorTypeMismatch : JsError :=
  { name := "Error"
    message := "`unstable_after()` must receive a promise or a function as its argument" }

/-- The error thrown by the `after` entry point of the wrapped request store
(the spec calls this kind `NestingError`). -/
def errorNestedAfter : JsError :=
  { name := "Error"
    message := "Cannot call `unstable_after()` from within `unstable_after()`" }

/-- The error thrown by the `run` entry point of the wrapped request store. -/
def errorNestedRun : JsError :=
  { name := "Error"
    message := "Invariant: Cannot call `AfterContext.run()` from within an `unstable_after()` callback" }

/-- Boolean test that one character list starts with another. -/
def charsStartWith : List Char → List Char → Bool
  | [], _ => true
  | _ :: _, [] => false
  | a :: as, b :: bs => (a == b) && charsStartWith as bs

/-- Boolean test that a character list occurs somewhere inside another. -/
def charsOccurIn (needle : List Char) : List Char → Bool
  | [] => charsStartWith needle []
  | b :: bs => charsStartWith needle (b :: bs) || charsOccurIn needle bs

/-- Decidable substring test on strings (used to state that an error message
names a given capability). -/
def mentions (needle haystack : String) : Bool :=
  charsOccurIn needle.toList haystack.toList

/-- The line logged by `runCallbacks` when a callback throws or rejects,
modelling `console.error("An error occurred in a function passed to
unstable_after:", err)` (the two console arguments joined by a space). -/
def consoleErrorLine (err : String) : String :=
  "An error occurred in a function passed to `unstable_after()`: " ++ err

/-- Running a raw callback body: the effects it applies and its result
(`Except.error` models a synchronous throw or asynchronous rejection). -/
def runRawCallback : CbOutcome → List Nat × Except String Unit
  | CbOutcome.succeed e => ([e], Except.ok ())
  | CbOutcome.fail m => ([], Except.error m)

/-- The per-callback wrapper inside `runCallbacks`:
`try { await afterCallback() } catch (err) { console.error(...) }`.
Returns (effects applied, lines logged, result of the wrapped promise). -/
def runWrappedCallback (cb : CbOutcome) : List Nat × List String × Except String Unit :=
  match runRawCallback cb with
  | (effs, Except.ok ()) => (effs, [], Except.ok ())
  | (effs, Except.error m) => (effs, [consoleErrorLine m], Except.ok ())

/-- `Promise.all` on already-started unit promises: rejects iff one of the
joined promises rejects (with the first such rejection). -/
def promiseAllUnit : List (Except String Unit) → Except String Unit
  | [] => Except.ok ()
  | Except.error e :: _ => Except.error e
  | Except.ok () :: rest => promiseAllUnit rest

/-- Result of one drain pass: effects applied by the callbacks, lines
logged, and the settled state of the joined batch promise. -/
structure CbRun where
  effects : List Nat
  logs : List String
  result : Except String Unit
deriving Repr

/-- `runCallbacks` from after-context.ts, restricted to the callback batch
itself: early-returns on an empty queue, otherwise starts every callback
(each in its try/catch wrapper) and joins them with `Promise.all`. The
ambient-store substitution it performs is modelled separately by
`wrapRequestStoreForAfterCallbacks`; a present `cacheScope` only nests the
batch in a scope and does not change these results. -/
def runCallbacksBatch (cbs : List CbOutcome) : CbRun :=
  if cbs.length = 0 then { effects := [], logs := [], result := Except.ok () }
  else
    let runs := cbs.map runWrappedCallback
    { effects := List.flatten (runs.map (fun r => r.1))
      logs := List.flatten (runs.map (fun r => r.2.1))
      result := promiseAllUnit (runs.map (fun r => r.2.2)) }

/-- The effect a callback applies when it succeeds. -/
def effectOf : CbOutcome → Option Nat
  | CbOutcome.succeed e => some e
  | CbOutcome.fail _ => none

/-- The line logged for a callback when it fails. -/
def logLineOf : CbOutcome → Option String
  | CbOutcome.succeed _ => none
  | CbOutcome.fail m => some (consoleErrorLine m)

/-- A heap of cookie-jar objects (`ResponseCookies` backing stores); a
reference is an index into the heap. Reference identity distinguishes
forwarding a field from allocating a fresh object. -/
abbrev Heap := List (List (String × String))

/-- The cookie list held by the jar at reference `r` (empty if dangling). -/
def jarAt (h : Heap) (r : Nat) : List (String × String) :=
  h.getD r []

/-- Allocate a fresh, empty cookie jar (models `new ResponseCookies(new
Headers())`): returns the extended heap and the fresh reference. -/
def allocJar (h : Heap) : Heap × Nat :=
  (h ++ [[]], h.length)

/-- One `set` call on the jar at reference `r`. -/
def writeCookie (h : Heap) (r : Nat) (kv : String × String) : Heap :=
  h.set r (jarAt h r ++ [kv])

/-- A sequence of `set` calls on the jar at reference `r`. -/
def writeCookies (h : Heap) (r : Nat) : List (String × String) → Heap
  | [] => h
  | kv :: kvs => writeCookies (writeCookie h r kv) r kvs

/-- The `RequestStore` fields the after-context reads or forwards.
`headers`, `cookies`, `draftMode` and `reactLoadableManifest` are opaque
object references (equality of the `Nat` means same object);
`mutableCookies` is a reference into the cookie-jar heap. -/
structure RequestStore where
  headers : Nat
  cookies : Nat
  draftMode : Nat
  mutableCookies : Nat
  assetPrefix : String
  reactLoadableManifest : Nat
deriving DecidableEq, Repr

/-- The object built by `wrapRequestStoreForAfterCallbacks`: the forwarded
store fields plus the two replaced scheduling entry points of its
`afterContext` property. -/
structure WrappedStore where
  base : RequestStore
  afterEntry : JSValue → Except JsError Unit
  runEntry : RequestStore → Except JsError Unit

/-- `wrapRequestStoreForAfterCallbacks` from after-context.ts: forwards
`headers`, `cookies`, `draftMode`, `assetPrefix` and
`reactLoadableManifest` from the original store, replaces
`mutableCookies` with a freshly allocated jar bound to a fresh `Headers`,
and replaces the `afterContext` entry points with functions that throw
unconditionally. -/
def wrapRequestStoreForAfterCallbacks (h : Heap) (s : RequestStore) :
    Heap × WrappedStore :=
  let fresh := allocJar h
  (fresh.1,
   { base :=
       { headers := s.headers
         cookies := s.cookies
         draftMode := s.draftMode
         mutableCookies := fresh.2
         assetPrefix := RequestStore.assetPrefix s
         reactLoadableManifest := s.reactLoadableManifest }
     afterEntry := fun _ => Except.error errorNestedAfter
     runEntry := fun _ => Except.error errorNestedRun })

/-- A callback that invokes the `after` entry point of the wrapped store
built from `(h, s)` on task `t` and, since that entry point throws,
rethrows the resulting error; if the entry point did not throw, the
callback would succeed with effect tag `0`. -/
def callbackCallingNestedAfter (h : Heap) (s : RequestStore) (t : JSValue) :
    CbOutcome :=
  match (wrapRequestStoreForAfterCallbacks h s).2.afterEntry t with
  | Except.ok _ => CbOutcome.succeed 0
  | Except.error e => CbOutcome.fail e.message

/-- Observable actions the after-context performs on its environment, in
program order: attaching a no-op rejection handler to a task, handing a
task to `waitUntil`, handing the drain job (`runCallbacksOnClose()`) to
`waitUntil`, the start of the drain pass, a callback effect applied during
draining, and a line logged during draining. -/
inductive Obs where
  | attachCatch : JSValue → Obs
  | waitUntilTask : JSValue → Obs
  | waitUntilDrainJob : Obs
  | drainStart : Obs
  | cbEffect : Nat → Obs
  | cbLogged : String → Obs
deriving DecidableEq, Repr

/-- The mutable state of one `AfterContextImpl` instance, together with the
construction-time host bindings. `drainRegistered` records that
`waitUntil(this.runCallbacksOnClose())` has been called (the drain job is
pending on the close signal); `drained` records that the close signal has
fired and the drain pass has run. -/
structure AfterState where
  hasWaitUntil : Bool
  hasOnClose : Bool
  hasCacheScope : Bool
  requestStore : Option RequestStore
  afterCallbacks : List CbOutcome
  drainRegistered : Bool
  drained : Bool
deriving DecidableEq, Repr

/-- Decidable equality for `Except`, so that concrete step results can be
checked by `decide`. -/
instance {ε α : Type} [DecidableEq ε] [DecidableEq α] :
    DecidableEq (Except ε α) := fun a b =>
  match a, b with
  | Except.ok x, Except.ok y =>
      if h : x = y then isTrue (by rw [h])
      else isFalse (fun hh => by cases hh; exact h rfl)
  | Except.error e, Except.error f =>
      if h : e = f then isTrue (by rw [h])
      else isFalse (fun hh => by cases hh; exact h rfl)
  | Except.ok _, Except.error _ => isFalse (fun hh => by cases hh)
  | Except.error _, Except.ok _ => isFalse (fun hh => by cases hh)

/-- Result of one synchronous entry-point call: the updated context state,
the call result (`Except.error` models a synchronous throw to the caller),
and the observations emitted. -/
structure StepOut where
  state : AfterState
  result : Except JsError Unit
  obs : List Obs
deriving DecidableEq, Repr

/-- `AfterContextImpl.run`: stores the request store and executes the body
(inside `cacheScope.run` when a cache scope is present — transparent for
these results). It performs no state check and cannot throw. -/
def AfterContextImpl.run (st : AfterState) (store : RequestStore) : StepOut :=
  { state := { st with requestStore := some store }
    result := Except.ok ()
    obs := [] }

/-- `AfterContextImpl.addCallback`: on an empty queue first validates
`waitUntil`, `requestStore` and `onClose` (in that order), throwing before
anything is queued if one is missing, and otherwise registers the drain job
with `waitUntil`; finally pushes the callback. Note that the push is the
last statement, so a throw from the validation leaves the queue empty. -/
def addCallback (st : AfterState) (cb : CbOutcome) : StepOut :=
  if st.afterCallbacks.length = 0 then
    if !st.hasWaitUntil then
      { state := st, result := Except.error errorWaitUntilNotAvailable, obs := [] }
    else if st.requestStore.isNone then
      { state := st, result := Except.error errorRequestStoreInvariant, obs := [] }
    else if !st.hasOnClose then
      { state := st, result := Except.error errorOnCloseNotAvailable, obs := [] }
    else
      { state := { st with
          afterCallbacks := st.afterCallbacks ++ [cb]
          drainRegistered := true }
        result := Except.ok ()
        obs := [Obs.waitUntilDrainJob] }
  else
    { state := { st with afterCallbacks := st.afterCallbacks ++ [cb] }
      result := Except.ok ()
      obs := [] }

/-- The callback body of a callable value; the default case is never
consulted, because every use is guarded by the `typeof task === "function"`
check. -/
def callbackBodyOf : JSValue → CbOutcome
  | JSValue.functionV _ _ beh => beh
  | _ => CbOutcome.succeed 0

/-- `AfterContextImpl.after`: classifies the task. A promise first gets the
no-op `catch` handler, then `waitUntil` is checked (throwing if absent) and
the task is handed to it; a function goes through `addCallback` (wrapped in
the transparent tracer); anything else throws the type-mismatch error. -/
def afterStep (st : AfterState) (task : JSValue) : StepOut :=
  if isPromise task then
    if !st.hasWaitUntil then
      { state := st
        result := Except.error errorWaitUntilNotAvailable
        obs := [Obs.attachCatch task] }
    else
      { state := st
        result := Except.ok ()
        obs := [Obs.attachCatch task, Obs.waitUntilTask task] }
  else if typeofJs task == "function" then
    addCallback st (callbackBodyOf task)
  else
    { state := st, result := Except.error errorTypeMismatch, obs := [] }

/-- The close signal firing (resolution of the promise awaited by
`runCallbacksOnClose`): if the drain job is pending, the drain pass runs
once over the queued callbacks; otherwise nothing happens. The queue is not
cleared by the source, and a second close signal has no effect because the
awaited promise is already resolved. -/
def fireClose (st : AfterState) : StepOut :=
  if st.drainRegistered && !st.drained then
    let batch := runCallbacksBatch st.afterCallbacks
    { state := { st with drained := true }
      result := batch.result.mapError (fun m => { name := "Error", message := m })
      obs := Obs.drainStart ::
        (batch.effects.map Obs.cbEffect ++ batch.logs.map Obs.cbLogged) }
  else
    { state := st, result := Except.ok (), obs := [] }

/-- External events driving one request lifecycle: a `schedule` (`after`)
call with a task, or the transport-close signal. -/
inductive Ev where
  | schedule : JSValue → Ev
  | close : Ev
deriving DecidableEq, Repr

/-- Dispatch one event to the context. -/
def step (st : AfterState) : Ev → StepOut
  | Ev.schedule t => afterStep st t
  | Ev.close => fireClose st

/-- Run a list of events, collecting all observations in order. -/
def runEvents (st : AfterState) : List Ev → AfterState × List Obs
  | [] => (st, [])
  | e :: es =>
    let o := step st e
    let rest := runEvents o.state es
    (rest.1, o.obs ++ rest.2)

/-- The context state for a fully configured environment (`waitUntil` and
`onClose` both provided, no cache scope) right after construction. -/
def initState (hasWaitUntil hasOnClose : Bool) : AfterState :=
  { hasWaitUntil := hasWaitUntil
    hasOnClose := hasOnClose
    hasCacheScope := false
    requestStore := none
    afterCallbacks := []
    drainRegistered := false
    drained := false }

/-- A fully configured context after `run(store, handler)` has installed
the request store. -/
def readyState (store : RequestStore) : AfterState :=
  (AfterContextImpl.run (initState true true) store).state

/-- The schedule event for a plain callback function with body `c`. -/
def schedCb (c : CbOutcome) : Ev :=
  Ev.schedule (JSValue.functionV false false c)

/-- JavaScript `String.prototype.endsWith`: whether `s` ends with
`suffix`, computed over the character lists. -/
def endsWithJs (s suffix : String) : Bool :=
  charsStartWith suffix.toList.reverse s.toList.reverse

/-- `InvariantError` from the second source file: an `Error` whose message
appends a period to the given message unless it already ends with one, and
suffixes the internal-defect note; its `name` is "InvariantError". The
`options` constructor argument (error cause) is opaque and omitted. -/
def InvariantError (message : String) : JsError :=
  { name := "InvariantError"
    message := "Invariant: " ++
      (if endsWithJs message "." then message else message ++ ".") ++
      " This is a bug in Next.js." }

/-- The message formula as the specification claim words it (for the
refinement comparison in claim C8). -/
def invariantMessageSpec (m : String) : String :=
  "Invariant: " ++ (if endsWithJs m "." then m else m ++ ".") ++
    " This is a bug in Next.js."

/-- Whether a rejection of task `t` is left unobserved given the emitted
observations: the host raises an unhandled-rejection condition exactly when
a task rejects and no handler was ever attached to its rejection channel. -/
def unhandledRejectionRaised (t : JSValue) (obs : List Obs) : Prop :=
  rejectsJs t = true ∧ Obs.attachCatch t ∉ obs

/-- The context state after a full lifecycle: `run`, then scheduling the
given callbacks, then the close signal and the drain pass. -/
def drainedState (store : RequestStore) (cbs : List CbOutcome) : AfterState :=
  (fireClose (runEvents (readyState store) (cbs.map schedCb)).1).state

/-- The store part of the wrapped request store built from heap `h` and
store `s`. -/
def wrappedBase (h : Heap) (s : RequestStore) : RequestStore :=
  (wrapRequestStoreForAfterCallbacks h s).2.base

/-- The heap after building the wrapped request store from heap `h` and
store `s` (one fresh, empty cookie jar allocated). -/
def wrappedHeap (h : Heap) (s : RequestStore) : Heap :=
  (wrapRequestStoreForAfterCallbacks h s).1

/-- A concrete request store used for concrete evaluations. -/
def store0 : RequestStore :=
  { headers := 10
    cookies := 11
    draftMode := 12
    mutableCookies := 0
    assetPrefix := "/assets"
    reactLoadableManifest := 13 }

/-- A concrete heap with one cookie jar holding one cookie. -/
def heap0 : Heap := [[("session", "abc")]]

/-- A concrete context state whose environment provides `onClose` but not
`waitUntil`, with the request store installed and nothing scheduled yet. -/
def stNoWaitUntil : AfterState :=
  { hasWaitUntil := false
    hasOnClose := true
    hasCacheScope := false
    requestStore := some store0
    afterCallbacks := []
    drainRegistered := false
    drained := false }

/-- A concrete awaitable task that eventually rejects. -/
def rejectingPromiseTask : JSValue := JSValue.objectV true true true

theorem runWrappedCallback_eq (cb : CbOutcome) :
    runWrappedCallback cb =
      ((effectOf cb).toList, (logLineOf cb).toList, Except.ok ()) := by
  cases cb <;> rfl

theorem promiseAllUnit_wrapped (l : List CbOutcome) :
    promiseAllUnit (l.map (fun cb => (runWrappedCallback cb).2.2)) =
      Except.ok () := by
  induction l with
  | nil => rfl
  | cons a l ih =>
      rw [List.map_cons, runWrappedCallback_eq]
      simpa [promiseAllUnit] using ih

theorem flatten_map_toList {A B : Type} (f : A → Option B) (l : List A) :
    (l.map (fun a => (f a).toList)).flatten = l.filterMap f := by
  induction l with
  | nil => rfl
  | cons a l ih =>
      simp only [List.map_cons, List.flatten_cons, ih, List.filterMap_cons]
      cases h : f a <;> simp [h]

theorem flatten_map_effects (l : List CbOutcome) :
    (l.map (fun cb => (runWrappedCallback cb).1)).flatten =
      l.filterMap effectOf := by
  have hf : (fun cb => (runWrappedCallback cb).1) =
      (fun cb : CbOutcome => (effectOf cb).toList) := by
    funext cb; rw [runWrappedCallback_eq]
  rw [hf, flatten_map_toList]

theorem flatten_map_logs (l : List CbOutcome) :
    (l.map (fun cb => (runWrappedCallback cb).2.1)).flatten =
      l.filterMap logLineOf := by
  have hf : (fun cb => (runWrappedCallback cb).2.1) =
      (fun cb : CbOutcome => (logLineOf cb).toList) := by
    funext cb; rw [runWrappedCallback_eq]
  rw [hf, flatten_map_toList]

theorem runCallbacksBatch_spec (cbs : List CbOutcome) :
    runCallbacksBatch cbs =
      { effects := cbs.filterMap effectOf
        logs := cbs.filterMap logLineOf
        result := Except.ok () } := by
  unfold runCallbacksBatch
  by_cases h : cbs.length = 0
  · rw [if_pos h]
    rw [List.length_eq_zero] at h
    subst h
    rfl
  · rw [if_neg h]
    simp only [List.map_map, Function.comp]
    rw [CbRun.mk.injEq]
    exact ⟨flatten_map_effects cbs, flatten_map_logs cbs,
      promiseAllUnit_wrapped cbs⟩

theorem isPromise_functionV (ht tc : Bool) (c : CbOutcome) :
    isPromise (JSValue.functionV ht tc c) = false := by
  simp [isPromise, typeofJs]

theorem afterStep_functionV (st : AfterState) (ht tc : Bool) (c : CbOutcome) :
    afterStep st (JSValue.functionV ht tc c) = addCallback st c := by
  rw [afterStep, isPromise_functionV]
  rfl

theorem addCallback_nonempty (st : AfterState) (cb : CbOutcome)
    (hne : st.afterCallbacks ≠ []) :
    addCallback st cb =
      { state := { st with afterCallbacks := st.afterCallbacks ++ [cb] }
        result := Except.ok ()
        obs := [] } := by
  rw [addCallback, if_neg]
  simpa [List.length_eq_zero] using hne

theorem runEvents_sched_nonempty (cbs : List CbOutcome) (st : AfterState)
    (hne : st.afterCallbacks ≠ []) :
    runEvents st (cbs.map schedCb) =
      ({ st with afterCallbacks := st.afterCallbacks ++ cbs }, []) := by
  induction cbs generalizing st with
  | nil => simp [runEvents]
  | cons c cs ih =>
      simp only [List.map_cons, runEvents, step, schedCb]
      rw [afterStep_functionV, addCallback_nonempty st c hne]
      rw [ih _ (by simp)]
      simp

theorem schedulePhase (store : RequestStore) (cbs : List CbOutcome)
    (hne : cbs ≠ []) :
    runEvents (readyState store) (cbs.map schedCb) =
      ({ hasWaitUntil := true, hasOnClose := true, hasCacheScope := false
         requestStore := some store, afterCallbacks := cbs
         drainRegistered := true, drained := false },
        [Obs.waitUntilDrainJob]) := by
  cases cbs with
  | nil => exact absurd rfl hne
  | cons c cs =>
      simp only [List.map_cons, runEvents, step, schedCb]
      rw [afterStep_functionV]
      have h1 : addCallback (readyState store) c =
          { state := { readyState store with
              afterCallbacks := [c], drainRegistered := true }
            result := Except.ok ()
            obs := [Obs.waitUntilDrainJob] } := rfl
      rw [h1]
      rw [runEvents_sched_nonempty cs _ (by simp)]
      simp [readyState, AfterContextImpl.run, initState]

theorem jarAt_eq_getElem (g : Heap) (q : Nat) :
    jarAt g q = (g[q]?).getD [] := by
  rw [jarAt, List.getD_eq_getElem?_getD]

theorem jarAt_writeCookie_ne (g : Heap) (r q : Nat) (kv : String × String)
    (hne : r ≠ q) :
    jarAt (writeCookie g r kv) q = jarAt g q := by
  unfold writeCookie
  rw [jarAt_eq_getElem, List.getElem?_set_ne hne, ← jarAt_eq_getElem]

theorem jarAt_writeCookies_ne (kvs : List (String × String)) (g : Heap)
    (r q : Nat) (hne : r ≠ q) :
    jarAt (writeCookies g r kvs) q = jarAt g q := by
  induction kvs generalizing g with
  | nil => rfl
  | cons kv kvs ih =>
      rw [writeCookies, ih, jarAt_writeCookie_ne g r q kv hne]

theorem jarAt_append_left (g g2 : Heap) (q : Nat) (hq : q < g.length) :
    jarAt (g ++ g2) q = jarAt g q := by
  rw [jarAt_eq_getElem, List.getElem?_append_left hq, ← jarAt_eq_getElem]

theorem wrappedBase_mutableCookies (h : Heap) (s : RequestStore) :
    (wrappedBase h s).mutableCookies = h.length := rfl

theorem jarAt_wrappedHeap_fresh (h : Heap) (s : RequestStore) :
    jarAt (wrappedHeap h s) (wrappedBase h s).mutableCookies = [] := by
  have h1 : wrappedHeap h s = h ++ [[]] := rfl
  rw [h1, wrappedBase_mutableCookies, jarAt_eq_getElem,
    List.getElem?_concat_length]
  rfl

/-- C4: During draining, each queued callback's synchronous throw or
asynchronous rejection is caught individually and logged; for every mix of
failing and succeeding callbacks, no failure propagates out of the drain
pass (the joined batch promise settles successfully), no failure cancels
or blocks sibling callbacks, and every succeeding callback's effect is
still applied. -/
theorem drainIsolatesCallbackFailures (cbs : List CbOutcome) :
    (runCallbacksBatch cbs).result = Except.ok () ∧
    (runCallbacksBatch cbs).effects = cbs.filterMap effectOf ∧
    (runCallbacksBatch cbs).logs = cbs.filterMap logLineOf := by
  rw [runCallbacksBatch_spec]
  exact ⟨rfl, rfl, rfl⟩

theorem fireClose_run (hw ho hc : Bool) (rs : Option RequestStore)
    (cbs : List CbOutcome) :
    fireClose
      { hasWaitUntil := hw, hasOnClose := ho, hasCacheScope := hc
        requestStore := rs, afterCallbacks := cbs
        drainRegistered := true, drained := false } =
      { state :=
          { hasWaitUntil := hw, hasOnClose := ho, hasCacheScope := hc
            requestStore := rs, afterCallbacks := cbs
            drainRegistered := true, drained := true }
        result := Except.ok ()
        obs := Obs.drainStart ::
          ((cbs.filterMap effectOf).map Obs.cbEffect ++
            (cbs.filterMap logLineOf).map Obs.cbLogged) } := by
  simp [fireClose, runCallbacksBatch_spec, Except.mapError]

/-- C3: for every nonempty batch of callback tasks scheduled before the
close signal (with `waitUntil`, `requestStore` and `onClose` all present),
the drain job is handed to `waitUntil` exactly once — at the first
schedule, i.e. on the empty-to-nonempty transition of the queue — the
scheduling phase performs no callback execution, and the close signal
triggers exactly one drain pass executing all queued callbacks (a second
close signal does nothing). -/
theorem singleDrainRegistrationExecutesAll (store : RequestStore)
    (cbs : List CbOutcome) (hne : cbs ≠ []) :
    (runEvents (readyState store) (cbs.map schedCb)).2 =
      [Obs.waitUntilDrainJob] ∧
    (runEvents (readyState store) (cbs.map schedCb)).1.afterCallbacks = cbs ∧
    (runEvents (readyState store) (cbs.map schedCb)).1.drained = false ∧
    (fireClose ((runEvents (readyState store) (cbs.map schedCb)).1)).obs =
      Obs.drainStart ::
        ((cbs.filterMap effectOf).map Obs.cbEffect ++
          (cbs.filterMap logLineOf).map Obs.cbLogged) ∧
    (fireClose ((runEvents (readyState store)
        (cbs.map schedCb)).1)).state.drained = true ∧
    (fireClose ((fireClose ((runEvents (readyState store)
        (cbs.map schedCb)).1)).state)).obs = [] := by
  rw [schedulePhase store cbs hne, fireClose_run]
  refine ⟨rfl, rfl, rfl, rfl, rfl, rfl⟩

/-- Witness for C3: three concrete callbacks, the middle one failing. -/
theorem singleDrainRegistrationExecutesAll_witness :
    ([CbOutcome.succeed 5, CbOutcome.fail "boom", CbOutcome.succeed 7] ≠
      ([] : List CbOutcome)) ∧
    (runEvents (readyState store0)
      ([CbOutcome.succeed 5, CbOutcome.fail "boom",
        CbOutcome.succeed 7].map schedCb)).2 = [Obs.waitUntilDrainJob] ∧
    (fireClose ((runEvents (readyState store0)
      ([CbOutcome.succeed 5, CbOutcome.fail "boom",
        CbOutcome.succeed 7].map schedCb)).1)).obs =
      Obs.drainStart :: [Obs.cbEffect 5, Obs.cbEffect 7,
        Obs.cbLogged (consoleErrorLine "boom")] :=
  ⟨by decide,
    (singleDrainRegistrationExecutesAll store0
      [CbOutcome.succeed 5, CbOutcome.fail "boom", CbOutcome.succeed 7]
      (by decide)).1,
    by
      rw [(singleDrainRegistrationExecutesAll store0
        [CbOutcome.succeed 5, CbOutcome.fail "boom", CbOutcome.succeed 7]
        (by decide)).2.2.2.1]
      rfl⟩

theorem drainedState_eq (store : RequestStore) (cbs : List CbOutcome)
    (hne : cbs ≠ []) :
    drainedState store cbs =
      { hasWaitUntil := true, hasOnClose := true, hasCacheScope := false
        requestStore := some store, afterCallbacks := cbs
        drainRegistered := true, drained := true } := by
  rw [drainedState, schedulePhase store cbs hne, fireClose_run]

/-- C1 (amended): once the drain batch has settled, the context object
itself is NOT guarded: invoking `run` again succeeds without any error,
and scheduling a further callback task is silently accepted — it returns
successfully, is appended to the queue, registers nothing with
`waitUntil`, and is never executed (a later close signal does nothing).
The spent-rejection behaviour exists only on the entry points of the
wrapped request store used during draining. -/
theorem spentContextHasNoGuard (store : RequestStore) (cbs : List CbOutcome)
    (c : CbOutcome) (hne : cbs ≠ []) :
    (drainedState store cbs).drained = true ∧
    (AfterContextImpl.run (drainedState store cbs) store).result =
      Except.ok () ∧
    (afterStep (drainedState store cbs)
        (JSValue.functionV false false c)).result = Except.ok () ∧
    (afterStep (drainedState store cbs)
        (JSValue.functionV false false c)).state.afterCallbacks =
      cbs ++ [c] ∧
    (afterStep (drainedState store cbs)
        (JSValue.functionV false false c)).obs = [] ∧
    (fireClose (afterStep (drainedState store cbs)
        (JSValue.functionV false false c)).state).obs = [] := by
  rw [drainedState_eq store cbs hne, afterStep_functionV,
    addCallback_nonempty _ c hne]
  exact ⟨rfl, rfl, rfl, rfl, rfl, rfl⟩

/-- Witness for C1 (amended) at a concrete input. -/
theorem spentContextHasNoGuard_witness :
    ([CbOutcome.succeed 2] ≠ ([] : List CbOutcome)) ∧
    (AfterContextImpl.run (drainedState store0 [CbOutcome.succeed 2])
      store0).result = Except.ok () ∧
    (afterStep (drainedState store0 [CbOutcome.succeed 2])
        (JSValue.functionV false false (CbOutcome.succeed 3))).state.afterCallbacks =
      [CbOutcome.succeed 2, CbOutcome.succeed 3] :=
  ⟨by decide,
    (spentContextHasNoGuard store0 [CbOutcome.succeed 2]
      (CbOutcome.succeed 3) (by decide)).2.1,
    (spentContextHasNoGuard store0 [CbOutcome.succeed 2]
      (CbOutcome.succeed 3) (by decide)).2.2.2.1⟩

/-- C1 counterexample: at a concrete fully drained context, invoking `run`
again does NOT throw (it returns successfully), and a further callback
schedule is silently accepted into the queue — refuting the claim that the
spent context rejects scope re-entry and further scheduling. -/
theorem spentContextClaimFailsConcretely :
    (drainedState store0 [CbOutcome.succeed 0]).drained = true ∧
    (AfterContextImpl.run (drainedState store0 [CbOutcome.succeed 0])
      store0).result = Except.ok () ∧
    (afterStep (drainedState store0 [CbOutcome.succeed 0])
        (JSValue.functionV false false (CbOutcome.succeed 1))).result =
      Except.ok () ∧
    (afterStep (drainedState store0 [CbOutcome.succeed 0])
        (JSValue.functionV false false (CbOutcome.succeed 1))).state.afterCallbacks =
      [CbOutcome.succeed 0, CbOutcome.succeed 1] := by
  decide

/-- C2 (amended): when the first callback-type task is scheduled (pending
queue empty) and `waitUntil` or `onClose` is absent, the schedule call
fails synchronously with the ConfigurationError naming the missing
capability — naming `waitUntil`, not `onClose`, when `waitUntil` is the
absent one — the drain job is not registered, and the callback itself is
NOT queued either (the throw precedes the push, leaving the queue empty). -/
theorem firstCallbackMissingCapability (st : AfterState) (ht tc : Bool)
    (cb : CbOutcome) (he : st.afterCallbacks = []) :
    (st.hasWaitUntil = false →
      afterStep st (JSValue.functionV ht tc cb) =
        { state := st, result := Except.error errorWaitUntilNotAvailable
          obs := [] } ∧
      (afterStep st (JSValue.functionV ht tc cb)).state.afterCallbacks = [] ∧
      mentions "waitUntil" errorWaitUntilNotAvailable.message = true ∧
      mentions "onClose" errorWaitUntilNotAvailable.message = false) ∧
    (st.hasWaitUntil = true → st.requestStore.isNone = false →
      st.hasOnClose = false →
      afterStep st (JSValue.functionV ht tc cb) =
        { state := st, result := Except.error errorOnCloseNotAvailable
          obs := [] } ∧
      (afterStep st (JSValue.functionV ht tc cb)).state.afterCallbacks = [] ∧
      mentions "onClose" errorOnCloseNotAvailable.message = true) := by
  rw [afterStep_functionV]
  constructor
  · intro hw
    have h1 : addCallback st cb =
        { state := st, result := Except.error errorWaitUntilNotAvailable
          obs := [] } := by
      rw [addCallback, if_pos (by rw [he]; rfl), hw]
      rfl
    exact ⟨h1, by rw [h1]; exact he, by decide, by decide⟩
  · intro hw hrs ho
    have h1 : addCallback st cb =
        { state := st, result := Except.error errorOnCloseNotAvailable
          obs := [] } := by
      rw [addCallback, if_pos (by rw [he]; rfl), hw, hrs, ho]
      rfl
    exact ⟨h1, by rw [h1]; exact he, by decide⟩

/-- Witness for C2 (amended) at a concrete misconfigured context. -/
theorem firstCallbackMissingCapability_witness :
    stNoWaitUntil.afterCallbacks = [] ∧
    stNoWaitUntil.hasWaitUntil = false ∧
    afterStep stNoWaitUntil (JSValue.functionV false false (CbOutcome.succeed 4)) =
      { state := stNoWaitUntil
        result := Except.error errorWaitUntilNotAvailable
        obs := [] } ∧
    mentions "waitUntil" errorWaitUntilNotAvailable.message = true :=
  ⟨rfl, rfl,
    ((firstCallbackMissingCapability stNoWaitUntil false false
      (CbOutcome.succeed 4) rfl).1 rfl).1,
    ((firstCallbackMissingCapability stNoWaitUntil false false
      (CbOutcome.succeed 4) rfl).1 rfl).2.2.1⟩

/-- C2 counterexample: with `onClose` present but `waitUntil` absent, the
first callback schedule throws the ConfigurationError naming `waitUntil`,
but afterwards the queue is still EMPTY — the callback was not queued,
refuting the final clause of the claim ("the callback itself has still
been queued"). -/
theorem firstCallbackNotQueuedOnThrow :
    (afterStep stNoWaitUntil
      (JSValue.functionV false false (CbOutcome.succeed 0))).result =
      Except.error errorWaitUntilNotAvailable ∧
    (afterStep stNoWaitUntil
      (JSValue.functionV false false
        (CbOutcome.succeed 0))).state.afterCallbacks = [] := by
  decide

/-- C5: for every awaitable task handed to `after` when `waitUntil` is
present, the no-op rejection observer is attached, `waitUntil` receives
the task exactly once, and the pending-callback queue is untouched; when
`waitUntil` is absent the call throws the ConfigurationError naming that
capability; in both cases no unhandled-rejection condition can arise even
if the task rejects. -/
theorem awaitableHandedToWaitUntil (st : AfterState) (t : JSValue)
    (hp : isPromise t = true) :
    (st.hasWaitUntil = true →
      afterStep st t =
        { state := st, result := Except.ok ()
          obs := [Obs.attachCatch t, Obs.waitUntilTask t] }) ∧
    (st.hasWaitUntil = false →
      afterStep st t =
        { state := st, result := Except.error errorWaitUntilNotAvailable
          obs := [Obs.attachCatch t] } ∧
      mentions "waitUntil" errorWaitUntilNotAvailable.message = true) ∧
    (afterStep st t).state.afterCallbacks = st.afterCallbacks ∧
    ¬ unhandledRejectionRaised t (afterStep st t).obs := by
  have hA : st.hasWaitUntil = false →
      afterStep st t =
        { state := st, result := Except.error errorWaitUntilNotAvailable
          obs := [Obs.attachCatch t] } := by
    intro hw
    rw [afterStep, if_pos hp, hw]
    rfl
  have hB : st.hasWaitUntil = true →
      afterStep st t =
        { state := st, result := Except.ok ()
          obs := [Obs.attachCatch t, Obs.waitUntilTask t] } := by
    intro hw
    rw [afterStep, if_pos hp, hw]
    rfl
  refine ⟨hB, fun hw => ⟨hA hw, by decide⟩, ?_, ?_⟩
  · cases hwv : st.hasWaitUntil
    · rw [hA hwv]
    · rw [hB hwv]
  · intro hur
    apply hur.2
    cases hwv : st.hasWaitUntil
    · rw [hA hwv]
      exact List.mem_cons_self _ _
    · rw [hB hwv]
      exact List.mem_cons_self _ _

/-- Witness for C5: a concrete rejecting awaitable in a fully configured
context. -/
theorem awaitableHandedToWaitUntil_witness :
    isPromise rejectingPromiseTask = true ∧
    afterStep (readyState store0) rejectingPromiseTask =
      { state := readyState store0, result := Except.ok ()
        obs := [Obs.attachCatch rejectingPromiseTask,
          Obs.waitUntilTask rejectingPromiseTask] } ∧
    ¬ unhandledRejectionRaised rejectingPromiseTask
        (afterStep (readyState store0) rejectingPromiseTask).obs :=
  ⟨by decide,
    (awaitableHandedToWaitUntil (readyState store0) rejectingPromiseTask
      (by decide)).1 rfl,
    (awaitableHandedToWaitUntil (readyState store0) rejectingPromiseTask
      (by decide)).2.2.2⟩

/-- C10: on the awaitable path, the no-op rejection observer is attached
before the `waitUntil` availability check, so even when `after` throws the
ConfigurationError because `waitUntil` is absent, the observation list
already contains the attachment and the rejection of the task can never
raise an unhandled-rejection condition. -/
theorem catchAttachedBeforeWaitUntilCheck (st : AfterState) (t : JSValue)
    (hp : isPromise t = true) (hw : st.hasWaitUntil = false) :
    afterStep st t =
      { state := st, result := Except.error errorWaitUntilNotAvailable
        obs := [Obs.attachCatch t] } ∧
    Obs.attachCatch t ∈ (afterStep st t).obs ∧
    ¬ unhandledRejectionRaised t (afterStep st t).obs := by
  have hA : afterStep st t =
      { state := st, result := Except.error errorWaitUntilNotAvailable
        obs := [Obs.attachCatch t] } := by
    rw [afterStep, if_pos hp, hw]
    rfl
  refine ⟨hA, ?_, ?_⟩
  · rw [hA]
    exact List.mem_cons_self _ _
  · intro hur
    apply hur.2
    rw [hA]
    exact List.mem_cons_self _ _

/-- Witness for C10: a concrete rejecting awaitable in a context without
`waitUntil`. -/
theorem catchAttachedBeforeWaitUntilCheck_witness :
    isPromise rejectingPromiseTask = true ∧
    stNoWaitUntil.hasWaitUntil = false ∧
    afterStep stNoWaitUntil rejectingPromiseTask =
      { state := stNoWaitUntil
        result := Except.error errorWaitUntilNotAvailable
        obs := [Obs.attachCatch rejectingPromiseTask] } :=
  ⟨by decide, rfl,
    (catchAttachedBeforeWaitUntilCheck stNoWaitUntil rejectingPromiseTask
      (by decide) rfl).1⟩

/-- C6: both scheduling entry points exposed through the wrapped request
store throw unconditionally, for every call with any argument — `after`
with the nesting error, `run` with the invariant-flavoured nesting error —
and a batch containing a callback that calls the wrapped `after` (and so
fails with that error) still completes: the siblings' effects are applied,
the nesting error is logged, and the joined batch promise settles
successfully. -/
theorem wrappedEntryPointsAlwaysThrow (h : Heap) (s : RequestStore)
    (t : JSValue) (s2 : RequestStore) (a b : Nat) :
    (wrapRequestStoreForAfterCallbacks h s).2.afterEntry t =
      Except.error errorNestedAfter ∧
    (wrapRequestStoreForAfterCallbacks h s).2.runEntry s2 =
      Except.error errorNestedRun ∧
    runCallbacksBatch [CbOutcome.succeed a,
        callbackCallingNestedAfter h s t, CbOutcome.succeed b] =
      { effects := [a, b]
        logs := [consoleErrorLine errorNestedAfter.message]
        result := Except.ok () } := by
  refine ⟨rfl, rfl, ?_⟩
  have hcb : callbackCallingNestedAfter h s t =
      CbOutcome.fail errorNestedAfter.message := rfl
  rw [hcb, runCallbacksBatch_spec]
  rfl

/-- C7: the wrapped request store forwards the identity-bearing fields of
the original store by reference unchanged, while its `mutableCookies` is a
freshly allocated jar distinct from the original store's jar, so any
sequence of cookie writes performed through the wrapped store leaves the
original store's cookie jar unchanged. -/
theorem wrappedStoreForwardsFieldsInertCookies (h : Heap) (s : RequestStore)
    (kvs : List (String × String)) (hv : s.mutableCookies < h.length) :
    (wrappedBase h s).headers = s.headers ∧
    (wrappedBase h s).cookies = s.cookies ∧
    (wrappedBase h s).draftMode = s.draftMode ∧
    (wrappedBase h s).assetPrefix = RequestStore.assetPrefix s ∧
    (wrappedBase h s).reactLoadableManifest = s.reactLoadableManifest ∧
    (wrappedBase h s).mutableCookies ≠ s.mutableCookies ∧
    jarAt (wrappedHeap h s) (wrappedBase h s).mutableCookies = [] ∧
    jarAt (writeCookies (wrappedHeap h s)
        (wrappedBase h s).mutableCookies kvs) s.mutableCookies =
      jarAt h s.mutableCookies := by
  refine ⟨rfl, rfl, rfl, rfl, rfl, ?_, jarAt_wrappedHeap_fresh h s, ?_⟩
  · rw [wrappedBase_mutableCookies]
    exact Nat.ne_of_gt hv
  · rw [wrappedBase_mutableCookies,
      jarAt_writeCookies_ne kvs _ _ _ (Nat.ne_of_gt hv)]
    have h2 : wrappedHeap h s = h ++ [[]] := rfl
    rw [h2, jarAt_append_left h [[]] s.mutableCookies hv]

/-- Witness for C7 on a concrete heap and store. -/
theorem wrappedStoreForwardsFieldsInertCookies_witness :
    store0.mutableCookies < heap0.length ∧
    (wrappedBase heap0 store0).mutableCookies ≠ store0.mutableCookies ∧
    jarAt (writeCookies (wrappedHeap heap0 store0)
        (wrappedBase heap0 store0).mutableCookies [("stolen", "cookie")])
      store0.mutableCookies = jarAt heap0 store0.mutableCookies :=
  ⟨by decide,
    (wrappedStoreForwardsFieldsInertCookies heap0 store0
      [("stolen", "cookie")] (by decide)).2.2.2.2.2.1,
    (wrappedStoreForwardsFieldsInertCookies heap0 store0
      [("stolen", "cookie")] (by decide)).2.2.2.2.2.2.2⟩

/-- C8 counterexample: for the message "boom..", which already ends in two
periods, the constructor keeps both periods — the produced message is NOT
normalized down to a single period before the internal-defect suffix,
refuting the claim's "a message already ending in multiple periods is
reduced to a single one". -/
theorem invariantErrorKeepsMultiplePeriods :
    (InvariantError "boom..").message =
      "Invariant: boom.. This is a bug in Next.js." ∧
    (InvariantError "boom..").message ≠
      "Invariant: boom. This is a bug in Next.js." := by
  refine ⟨?_, ?_⟩ <;> decide

/-- C8 (amended): the `InvariantError` message equals
`"Invariant: " ++ (m if m ends with "." else m ++ ".") ++ " This is a bug
in Next.js."`, its name is "InvariantError"; a message not ending in a
period gets exactly one appended, while a message already ending in a
period — even several — is kept verbatim, not reduced. -/
theorem invariantErrorMessageFormula (m : String) :
    (InvariantError m).name = "InvariantError" ∧
    (InvariantError m).message = invariantMessageSpec m ∧
    (endsWithJs m "." = false →
      (InvariantError m).message =
        "Invariant: " ++ (m ++ ".") ++ " This is a bug in Next.js.") ∧
    (endsWithJs m "." = true →
      (InvariantError m).message =
        "Invariant: " ++ m ++ " This is a bug in Next.js.") := by
  refine ⟨rfl, rfl, ?_, ?_⟩ <;> intro hm <;> simp [InvariantError, hm]

/-- Witness for C8 (amended) at a concrete message without a final
period. -/
theorem invariantErrorMessageFormula_witness :
    (endsWithJs "oops" "." = false) ∧
    (InvariantError "oops").name = "InvariantError" ∧
    (InvariantError "oops").message =
      "Invariant: " ++ ("oops" ++ ".") ++ " This is a bug in Next.js." :=
  ⟨by decide, (invariantErrorMessageFormula "oops").1,
    (invariantErrorMessageFormula "oops").2.2.1 (by decide)⟩

theorem addCallback_obs (st : AfterState) (cb : CbOutcome) :
    (addCallback st cb).obs = [] ∨
      (addCallback st cb).obs = [Obs.waitUntilDrainJob] := by
  unfold addCallback
  repeat' split
  all_goals simp

/-- C9: a callable value carrying a callable `then` property fails the
awaitable probe (because its `typeof` is "function", not "object") and so
is classified as a callback — it goes through `addCallback`, is queued
(shown for a fully configured context), and is never handed to `waitUntil`
as an awaitable; `null`, despite `typeof null` being "object", also fails
the probe and is rejected with the type-mismatch error. -/
theorem classificationEdgeCases (st : AfterState) (ht tc : Bool)
    (beh : CbOutcome) (store : RequestStore) :
    isPromise (JSValue.functionV ht tc beh) = false ∧
    typeofJs (JSValue.functionV ht tc beh) = "function" ∧
    afterStep st (JSValue.functionV ht tc beh) = addCallback st beh ∧
    Obs.waitUntilTask (JSValue.functionV ht tc beh) ∉
      (afterStep st (JSValue.functionV ht tc beh)).obs ∧
    (afterStep (readyState store)
        (JSValue.functionV ht tc beh)).state.afterCallbacks = [beh] ∧
    typeofJs JSValue.nullV = "object" ∧
    isPromise JSValue.nullV = false ∧
    afterStep st JSValue.nullV =
      { state := st, result := Except.error errorTypeMismatch, obs := [] } := by
  refine ⟨isPromise_functionV ht tc beh, rfl,
    afterStep_functionV st ht tc beh, ?_, ?_, rfl, by decide, rfl⟩
  · rw [afterStep_functionV st ht tc beh]
    rcases addCallback_obs st beh with hobs | hobs <;> rw [hobs] <;> simp
  · rw [afterStep_functionV (readyState store) ht tc beh]
    rfl
